import Mathlib

/-!
Verification of the `jonblog` request-handling pipeline (`main.go`).

The repository is a small blog server: `PostHandler` reads a markdown file
by slug through a `SlugReader`, parses optional TOML frontmatter into a
`Post`, converts the remaining markdown to HTML, loads the layout template
`post.gohtml` and executes it into the HTTP response.

Shallow embedding conventions:
- `Post` / `Author` mirror the Go structs in `main.go`.
- External collaborators that `main.go` only calls (the `frontmatter`
  library, the goldmark converter, the template file) are modelled: the
  frontmatter extractor and the layout execution are concrete models from
  the spec, the markdown converter and filesystem are oracles supplied in
  an `Env` / `FileSys` record, matching the interface shape the Go code
  uses (`SlugReader`, `goldmark.Convert`, `template.ParseFiles`).
- Fallible Go calls become `Except`; the HTTP response is a status/body
  record; the connection writer may stop accepting bytes after `k` bytes
  (`writeLimit`), which is how `tpl.Execute(w, post)` fails mid-render.
- The handler also returns an event trace (which collaborators it invoked)
  and the `Post` record it handed to template execution, so that temporal
  claims ("never invokes X after failure Y") are statable.
-/

/-- `Author` struct from `main.go`: name and email, both strings. -/
structure Author where
  name : String := ""
  email : String := ""
deriving Repr, DecidableEq

/-- `Post` struct from `main.go`: title, slug, content (HTML fragment as a
string, `template.HTML` in Go), author. All default to empty. -/
structure Post where
  title : String := ""
  slug : String := ""
  content : String := ""
  author : Author := {}
deriving Repr, DecidableEq

/-- Kinds of filesystem access error (missing file, permission, I/O fault);
`FileReader.Read` must treat them all alike. -/
inductive FSErr where
  | missing
  | permission
  | ioFault
deriving Repr, DecidableEq

/-- A filesystem model for `FileReader.Read`: `os.Open` on a path yields a
file handle or an error, `io.ReadAll` on a handle yields the full contents
or an error. -/
structure FileSys where
  openRes : String → Except FSErr Nat
  readAllRes : Nat → Except FSErr String

/-- File-handle events, to state that every opened handle is closed. -/
inductive FEvt where
  | opened (h : Nat)
  | closed (h : Nat)
deriving Repr, DecidableEq

/-- `FileReader.Read` from `main.go`: open `slug + ".md"`, return `("", err)`
on open failure; otherwise `defer f.Close()`, read all, return `("", err)`
on read failure and `(contents, nil)` on success. The second component of
the result pair is `none` for a nil error; the trace records handle
acquisition and release. -/
def FileReader.Read (fs : FileSys) (slug : String) :
    (String × Option FSErr) × List FEvt :=
  match fs.openRes (slug ++ ".md") with
  | .error e => (("", some e), [])
  | .ok f =>
    match fs.readAllRes f with
    | .error e => (("", some e), [.opened f, .closed f])
    | .ok b => ((b, none), [.opened f, .closed f])

/-- The fixed frontmatter delimiter marker line. -/
def fmDelim : String := "+++"

/-- Split a character list at every occurrence of a separator character
(the segments between separators, empty segments included). -/
def splitOnChar (sep : Char) : List Char → List (List Char)
  | [] => [[]]
  | c :: cs =>
    match splitOnChar sep cs with
    | [] => [[c]]
    | l :: ls => if c = sep then [] :: l :: ls else (c :: l) :: ls

/-- Join character-list segments with a separator character; inverse of
`splitOnChar`. -/
def joinWith (sep : Char) : List (List Char) → List Char
  | [] => []
  | [l] => l
  | l :: ls => l ++ sep :: joinWith sep ls

/-- The lines of a string (split at every newline). -/
def strLines (s : String) : List String :=
  (splitOnChar '\n' s.data).map fun l => ⟨l⟩

/-- Join lines back with newlines. -/
def joinLines (ls : List String) : String :=
  ⟨joinWith '\n' (ls.map String.data)⟩

/-- Drop leading and trailing whitespace from a character list. -/
def trimChars (l : List Char) : List Char :=
  ((l.dropWhile Char.isWhitespace).reverse.dropWhile Char.isWhitespace).reverse

/-- Drop leading and trailing whitespace from a string. -/
def strTrim (s : String) : String := ⟨trimChars s.data⟩

/-- Whether `pat` occurs at the start of `s`. -/
def strStartsWith (s pat : String) : Bool := pat.data.isPrefixOf s.data

/-- Whether `pat` occurs at the end of `s`. -/
def strEndsWith (s pat : String) : Bool := pat.data.isSuffixOf s.data

/-- The string without its first and last character (the inside of a
bracketed or quoted token). -/
def strInner (s : String) : String := ⟨(s.data.drop 1).dropLast⟩

/-- Current TOML section while scanning a frontmatter block: top level,
the `[author]` table, or some other (ignored) table. -/
inductive FmSection where
  | top
  | author
  | other
deriving Repr, DecidableEq

/-- Assign one recognized frontmatter key to the matching `Post` field
(per the `toml:` tags in `main.go`); unrecognized keys are ignored. -/
def applyKV (sec : FmSection) (key val : String) (p : Post) : Post :=
  match sec with
  | .top =>
    if key = "title" then { p with title := val }
    else if key = "slug" then { p with slug := val }
    else p
  | .author =>
    if key = "name" then { p with author := { p.author with name := val } }
    else if key = "email" then { p with author := { p.author with email := val } }
    else p
  | .other => p

/-- Strip one pair of surrounding double quotes from a TOML value, if
present; other values (numbers, dates) are kept raw. -/
def unquote (s : String) : String :=
  if strStartsWith s "\"" && strEndsWith s "\"" && s.length ≥ 2 then
    strInner s
  else s

/-- Modelled from the spec: the key-value lines of a frontmatter block
(the `frontmatter` library is an external dependency, not in this
repository). Blank lines are skipped, `[name]` lines switch the current
table, `key = value` lines assign recognized keys into the `Post`, and any
other line is unparseable structured text, a parse error. -/
def fmLines (sec : FmSection) (p : Post) : List String → Except Unit Post
  | [] => .ok p
  | line :: rest =>
    let t := strTrim line
    if t = "" then fmLines sec p rest
    else if strStartsWith t "[" && strEndsWith t "]" then
      let tbl := strInner t
      fmLines (if tbl = "author" then .author else .other) p rest
    else
      match splitOnChar '=' t.data with
      | [] => .error ()
      | [_] => .error ()
      | key :: vparts =>
        fmLines sec
          (applyKV sec (strTrim ⟨key⟩) (unquote (strTrim ⟨joinWith '=' vparts⟩)) p)
          rest

/-- Split the lines after an opening delimiter into the metadata block and
the remaining body lines; `none` when the closing delimiter is missing
(an unterminated block). -/
def splitAtDelim : List String → Option (List String × List String)
  | [] => none
  | l :: rest =>
    if l = fmDelim then some ([], rest)
    else
      match splitAtDelim rest with
      | none => none
      | some (blk, body) => some (l :: blk, body)

/-- Whether the input begins with the frontmatter delimiter marker line. -/
def hasFmBlock (input : String) : Bool :=
  match strLines input with
  | [] => false
  | first :: _ => first = fmDelim

/-- Modelled from the spec: `frontmatter.Parse` (the `adrg/frontmatter`
library is an external dependency, not in this repository). Per the spec:
if the input begins with a delimited metadata block, parse it into the
given `Post`'s metadata fields and return the remaining text as the
markdown body; if absent, the entire input is the body and the record is
returned untouched; a malformed block (unterminated delimiter or
unparseable structured text) is a parse error. -/
def frontmatterParse (input : String) (post : Post) : Except Unit (Post × String) :=
  match strLines input with
  | [] => .ok (post, input)
  | first :: rest =>
    if first = fmDelim then
      match splitAtDelim rest with
      | none => .error ()
      | some (blk, body) =>
        match fmLines .top post blk with
        | .error e => .error e
        | .ok p => .ok (p, joinLines body)
    else .ok (post, input)

/-- Whether a frontmatter block (its key-value lines, scanned with the
same table tracking as `fmLines`) contains an assignment to the top-level
`slug` key. -/
def blockAssignsSlug (sec : FmSection) : List String → Bool
  | [] => false
  | line :: rest =>
    let t := strTrim line
    if t = "" then blockAssignsSlug sec rest
    else if strStartsWith t "[" && strEndsWith t "]" then
      blockAssignsSlug
        (if strInner t = "author" then FmSection.author else FmSection.other) rest
    else
      match splitOnChar '=' t.data with
      | [] => false
      | [_] => false
      | key :: _ =>
        if sec = FmSection.top ∧ strTrim ⟨key⟩ = "slug" then true
        else blockAssignsSlug sec rest

/-- Whether an input carries a frontmatter block that assigns the `slug`
key (false when there is no block, no closing delimiter, or no such
key). -/
def fmAssignsSlug (input : String) : Bool :=
  match strLines input with
  | [] => false
  | first :: rest =>
    if first = fmDelim then
      match splitAtDelim rest with
      | none => false
      | some (blk, _) => blockAssignsSlug FmSection.top blk
    else false

/-- Escape one character for an HTML text context, as the template engine
does for string fields: `&`, `<`, `>`, `"` and the apostrophe become
entities, everything else passes through. -/
def escChar (c : Char) : List Char :=
  if c = '&' then "&amp;".data
  else if c = '<' then "&lt;".data
  else if c = '>' then "&gt;".data
  else if c = '"' then "&#34;".data
  else if c = Char.ofNat 39 then "&#39;".data
  else [c]

/-- Escape every character of a string for an HTML text context. -/
def escChars : List Char → List Char
  | [] => []
  | c :: cs => escChar c ++ escChars cs

/-- HTML-escape a string (the substitution the template engine applies to
plain string fields such as the title). -/
def escapeHTML (s : String) : String := ⟨escChars s.data⟩

/-- Modelled from the spec: the layout template `post.gohtml` is consumed
from disk and is not in the repository. Per the spec it is a fixed HTML
skeleton exposing placeholders for title, author email, author name and
the content fragment, in that order; the static skeleton pieces around the
placeholders are the fields of this record. -/
structure Layout where
  s0 : String
  s1 : String
  s2 : String
  s3 : String
  s4 : String
deriving Repr, DecidableEq

/-- Modelled from the spec: executing the loaded layout template on a
`Post`. String metadata fields are substituted HTML-escaped; the content
field has the trusted-HTML type (`template.HTML`) and is injected
verbatim. -/
def executeLayout (L : Layout) (p : Post) : String :=
  L.s0 ++ escapeHTML p.title ++ L.s1 ++ escapeHTML p.author.email ++
    L.s2 ++ escapeHTML p.author.name ++ L.s3 ++ p.content ++ L.s4

/-- The first `k` characters of a string: what a response writer that fails
after accepting `k` bytes actually emits. -/
def takeBytes (s : String) (k : Nat) : String := ⟨s.data.take k⟩

/-- An HTTP response: status code and body bytes. -/
structure HttpRes where
  status : Nat
  body : String
deriving Repr, DecidableEq

/-- `http.Error(w, msg, code)`: a terminal plain-text error response. -/
def httpError (msg : String) (code : Nat) : HttpRes :=
  { status := code, body := msg }

/-- The collaborators `PostHandler` invokes, for the event trace. -/
inductive Evt where
  | readCall
  | fmCall
  | convertCall
  | tplLoadCall
  | execCall
deriving Repr, DecidableEq

/-- The per-request environment of the handler: the `SlugReader` it was
constructed with, the goldmark converter result, the result of
`template.ParseFiles("post.gohtml")`, and how many bytes the response
writer accepts before failing (`none` = the writer never fails). -/
structure Env where
  read : String → Except FSErr String
  convert : String → Except Unit String
  tplLoad : Except Unit Layout
  writeLimit : Option Nat

/-- Everything observable about one handler run: the response, the trace of
collaborator invocations, the `Post` handed to template execution (if
reached), and whether template execution itself failed (writer gave out
before the full render was written). -/
structure HandlerOut where
  res : HttpRes
  events : List Evt
  rendered : Option Post
  execFailed : Bool
deriving Repr, DecidableEq

/-- `PostHandler` from `main.go`, step for step: start from a zero `Post`,
set `post.Slug` from the URL path value, `sl.Read(post.Slug)` (error →
404 "Post not found"), `frontmatter.Parse` into `&post` (error → 500
"Error parsing frontmatter"), goldmark `Convert` of the rest (error → 500
"Error converting markdown"), `template.ParseFiles` (error → 500 "Error
parsing template"), set `post.Content`, then `err = tpl.Execute(w, post)`
— whose error the Go code assigns and never checks: the bytes the writer
accepted stand, the implicit status is 200, and the error is discarded. -/
def postHandler (env : Env) (slugPath : String) : HandlerOut :=
  let post : Post := { slug := slugPath }
  match env.read post.slug with
  | .error _ =>
    { res := httpError "Post not found" 404,
      events := [.readCall], rendered := none, execFailed := false }
  | .ok postMarkdown =>
    match frontmatterParse postMarkdown post with
    | .error _ =>
      { res := httpError "Error parsing frontmatter" 500,
        events := [.readCall, .fmCall], rendered := none, execFailed := false }
    | .ok (post, rest) =>
      match env.convert rest with
      | .error _ =>
        { res := httpError "Error converting markdown" 500,
          events := [.readCall, .fmCall, .convertCall],
          rendered := none, execFailed := false }
      | .ok html =>
        match env.tplLoad with
        | .error _ =>
          { res := httpError "Error parsing template" 500,
            events := [.readCall, .fmCall, .convertCall, .tplLoadCall],
            rendered := none, execFailed := false }
        | .ok L =>
          let post := { post with content := html }
          let out := executeLayout L post
          let written := match env.writeLimit with
            | none => out
            | some k => takeBytes out k
          { res := { status := 200, body := written },
            events := [.readCall, .fmCall, .convertCall, .tplLoadCall, .execCall],
            rendered := some post,
            execFailed := match env.writeLimit with
              | none => false
              | some k => decide (k < out.length) }

/-! ## Supporting lemmas -/

/-- A writer that accepts at least the whole output emits it unchanged. -/
theorem takeBytes_of_le (s : String) (k : Nat) (h : s.length ≤ k) :
    takeBytes s k = s := by
  cases s with
  | mk l => exact congrArg String.mk (List.take_of_length_le h)

/-- With no frontmatter block, the extractor returns the record untouched
and the entire input as the body. -/
theorem frontmatterParse_absent (c : String) (p : Post)
    (h : hasFmBlock c = false) : frontmatterParse c p = .ok (p, c) := by
  unfold frontmatterParse
  unfold hasFmBlock at h
  cases hc : strLines c with
  | nil => simp
  | cons first rest =>
    rw [hc] at h
    simp only [decide_eq_false_iff_not] at h
    simp [h]

/-- Assigning any key other than the top-level `slug` leaves the post's
slug field unchanged. -/
theorem applyKV_slug_preserve (sec : FmSection) (k v : String) (p : Post)
    (h : ¬(sec = FmSection.top ∧ k = "slug")) :
    (applyKV sec k v p).slug = p.slug := by
  cases sec with
  | top =>
    have hs : ¬k = "slug" := fun hk => h ⟨rfl, hk⟩
    by_cases ht : k = "title" <;> simp [applyKV, ht, hs]
  | author =>
    by_cases hn : k = "name"
    · simp [applyKV, hn]
    · by_cases he : k = "email" <;> simp [applyKV, hn, he]
  | other => simp [applyKV]

/-- Assigning the top-level `slug` key sets the post's slug field to the
assigned value. -/
theorem applyKV_slug_set (v : String) (p : Post) :
    (applyKV FmSection.top "slug" v p).slug = v := rfl

/-- A block with no top-level `slug` assignment leaves the slug field of
the record being filled unchanged. -/
theorem fmLines_slug_preserve (lines : List String) :
    ∀ (sec : FmSection) (p q : Post), fmLines sec p lines = .ok q →
      blockAssignsSlug sec lines = false → q.slug = p.slug := by
  induction lines with
  | nil =>
    intro sec p q h _
    simp [fmLines] at h
    rw [h]
  | cons line rest ih =>
    intro sec p q h ha
    simp only [fmLines] at h
    simp only [blockAssignsSlug] at ha
    by_cases h1 : strTrim line = ""
    · simp only [if_pos h1] at h ha
      exact ih sec p q h ha
    · by_cases h2 : (strStartsWith (strTrim line) "[" &&
          strEndsWith (strTrim line) "]") = true
      · simp only [if_neg h1, if_pos h2] at h ha
        exact ih _ p q h ha
      · simp only [if_neg h1, if_neg h2] at h ha
        rcases hk : splitOnChar '=' (strTrim line).data with _ | ⟨key, _ | ⟨v0, vs⟩⟩
        · rw [hk] at h; simp at h
        · rw [hk] at h; simp at h
        · rw [hk] at h ha
          by_cases hs : sec = FmSection.top ∧ strTrim ⟨key⟩ = "slug"
          · simp [hs] at ha
          · simp only [if_neg hs] at ha
            rw [ih sec _ q h ha, applyKV_slug_preserve sec _ _ p hs]

/-- Whenever a block does assign the top-level `slug` key, the slug field
of the parse result does not depend on the record the parse started from:
two runs over the same block agree on the final slug (and they also agree
whenever the two starting records already agreed on it). -/
theorem fmLines_slug_agree (lines : List String) :
    ∀ (sec : FmSection) (p p' q q' : Post),
      fmLines sec p lines = .ok q → fmLines sec p' lines = .ok q' →
      (blockAssignsSlug sec lines = true ∨ p.slug = p'.slug) →
      q.slug = q'.slug := by
  induction lines with
  | nil =>
    intro sec p p' q q' h h' hd
    simp [fmLines] at h h'
    rcases hd with hd | hd
    · simp [blockAssignsSlug] at hd
    · rw [← h, ← h']; exact hd
  | cons line rest ih =>
    intro sec p p' q q' h h' hd
    simp only [fmLines] at h h'
    simp only [blockAssignsSlug] at hd
    by_cases h1 : strTrim line = ""
    · simp only [if_pos h1] at h h' hd
      exact ih sec p p' q q' h h' hd
    · by_cases h2 : (strStartsWith (strTrim line) "[" &&
          strEndsWith (strTrim line) "]") = true
      · simp only [if_neg h1, if_pos h2] at h h' hd
        exact ih _ p p' q q' h h' hd
      · simp only [if_neg h1, if_neg h2] at h h' hd
        rcases hk : splitOnChar '=' (strTrim line).data with _ | ⟨key, _ | ⟨v0, vs⟩⟩
        · rw [hk] at h; simp at h
        · rw [hk] at h; simp at h
        · rw [hk] at h h' hd
          by_cases hs : sec = FmSection.top ∧ strTrim ⟨key⟩ = "slug"
          · refine ih sec _ _ q q' h h' (Or.inr ?_)
            obtain ⟨hsec, hkey⟩ := hs
            subst hsec
            rw [hkey, applyKV_slug_set, applyKV_slug_set]
          · simp only [if_neg hs] at hd
            refine ih sec _ _ q q' h h' ?_
            rcases hd with hd | hd
            · exact Or.inl hd
            · exact Or.inr (by
                rw [applyKV_slug_preserve sec _ _ p hs,
                  applyKV_slug_preserve sec _ _ p' hs, hd])

/-- When the input has no frontmatter `slug` assignment, a successful
parse leaves the slug field of the given record in place. -/
theorem frontmatterParse_slug_preserve (c : String) (p q : Post)
    (rest : String) (h : frontmatterParse c p = .ok (q, rest))
    (ha : fmAssignsSlug c = false) : q.slug = p.slug := by
  unfold frontmatterParse at h
  unfold fmAssignsSlug at ha
  cases hl : strLines c with
  | nil =>
    simp only [hl] at h
    simp at h
    rw [h.1]
  | cons first rest2 =>
    simp only [hl] at h ha
    by_cases hf : first = fmDelim
    · rw [if_pos hf] at h ha
      cases hs : splitAtDelim rest2 with
      | none => simp only [hs] at h; simp at h
      | some pr =>
        obtain ⟨blk, body⟩ := pr
        simp only [hs] at h ha
        cases hfm : fmLines .top p blk with
        | error e => simp only [hfm] at h; simp at h
        | ok p2 =>
          simp only [hfm] at h
          simp at h
          rw [← h.1]
          exact fmLines_slug_preserve blk .top p p2 hfm ha
    · rw [if_neg hf] at h
      simp at h
      rw [h.1]

/-- When the input does carry a frontmatter `slug` assignment, the slug of
a successful parse result does not depend on the record the parse started
from: the frontmatter value overwrites whatever was there. -/
theorem frontmatterParse_slug_overwrite (c : String) (p p' q q' : Post)
    (rest rest' : String)
    (h : frontmatterParse c p = .ok (q, rest))
    (h' : frontmatterParse c p' = .ok (q', rest'))
    (ha : fmAssignsSlug c = true) : q.slug = q'.slug := by
  unfold frontmatterParse at h h'
  unfold fmAssignsSlug at ha
  cases hl : strLines c with
  | nil => simp only [hl] at ha; simp at ha
  | cons first rest2 =>
    simp only [hl] at h h' ha
    by_cases hf : first = fmDelim
    · rw [if_pos hf] at h h' ha
      cases hs : splitAtDelim rest2 with
      | none => simp only [hs] at ha; simp at ha
      | some pr =>
        obtain ⟨blk, body⟩ := pr
        simp only [hs] at h h' ha
        cases hfm : fmLines .top p blk with
        | error e => simp only [hfm] at h; simp at h
        | ok p2 =>
          cases hfm' : fmLines .top p' blk with
          | error e => simp only [hfm'] at h'; simp at h'
          | ok p3 =>
            simp only [hfm] at h
            simp only [hfm'] at h'
            simp at h h'
            rw [← h.1, ← h'.1]
            exact fmLines_slug_agree blk .top p p' p2 p3 hfm hfm' (Or.inl ha)
    · rw [if_neg hf] at ha
      simp at ha

/-- Escaping never produces a raw `<`, `>` or `"` character. -/
theorem escChars_no_raw (l : List Char) :
    ∀ c ∈ escChars l, c ≠ '<' ∧ c ≠ '>' ∧ c ≠ '"' := by
  induction l with
  | nil => simp [escChars]
  | cons x xs ih =>
    intro c hc
    rw [escChars, List.mem_append] at hc
    rcases hc with hc | hc
    · unfold escChar at hc
      split_ifs at hc with h1 h2 h3 h4 h5
      · simp at hc; rcases hc with rfl | rfl | rfl | rfl | rfl <;> decide
      · simp at hc; rcases hc with rfl | rfl | rfl | rfl <;> decide
      · simp at hc; rcases hc with rfl | rfl | rfl | rfl <;> decide
      · simp at hc; rcases hc with rfl | rfl | rfl | rfl | rfl <;> decide
      · simp at hc; rcases hc with rfl | rfl | rfl | rfl | rfl <;> decide
      · simp at hc
        subst hc
        exact ⟨h2, h3, h4⟩
    · exact ih c hc

/-- `escapeHTML` never produces a raw `<`, `>` or `"` character. -/
theorem escapeHTML_no_raw (s : String) :
    ∀ c ∈ (escapeHTML s).data, c ≠ '<' ∧ c ≠ '>' ∧ c ≠ '"' :=
  escChars_no_raw s.data

/-! ## Claims about `FileReader.Read` -/

/-- C5: `FileReader.Read` consults exactly the file at path `slug + ".md"`
(two filesystems that agree there give the same run), returns the file's
entire contents on success, and maps every access error — whichever kind —
to the same failure shape with an empty-string result. -/
theorem fileReader_read_spec (fs fs' : FileSys) (slug : String) :
    (fs.openRes (slug ++ ".md") = fs'.openRes (slug ++ ".md") →
      fs.readAllRes = fs'.readAllRes →
      FileReader.Read fs slug = FileReader.Read fs' slug) ∧
    (∀ f b, fs.openRes (slug ++ ".md") = .ok f → fs.readAllRes f = .ok b →
      (FileReader.Read fs slug).1 = (b, none)) ∧
    (∀ e, fs.openRes (slug ++ ".md") = .error e →
      (FileReader.Read fs slug).1 = ("", some e)) ∧
    (∀ e, (FileReader.Read fs slug).1.2 = some e →
      (FileReader.Read fs slug).1.1 = "") := by
  refine ⟨?_, ?_, ?_, ?_⟩
  · intro h1 h2
    unfold FileReader.Read
    rw [h1, h2]
  · intro f b h1 h2
    simp [FileReader.Read, h1, h2]
  · intro e h1
    simp [FileReader.Read, h1]
  · intro e
    rcases ho : fs.openRes (slug ++ ".md") with e' | f
    · simp [FileReader.Read, ho]
    · rcases hr : fs.readAllRes f with e' | b <;>
        simp [FileReader.Read, ho, hr]

/-- A concrete filesystem with one file `post.md` behind handle 3. -/
def fsW : FileSys :=
  { openRes := fun p => if p = "post.md" then .ok 3 else .error .missing,
    readAllRes := fun f => if f = 3 then .ok "hello" else .error .ioFault }

/-- C5 witness: on the concrete filesystem, reading slug `post` returns the
file contents with a nil error. -/
theorem fileReader_read_spec_witness :
    (FileReader.Read fsW "post").1 = ("hello", none) :=
  (fileReader_read_spec fsW fsW "post").2.1 3 "hello" rfl rfl

/-- C9: every file handle that `FileReader.Read` opens appears closed in
the same run's trace, on success and on read failure alike. -/
theorem fileReader_read_closes (fs : FileSys) (slug : String) (f : Nat)
    (h : FEvt.opened f ∈ (FileReader.Read fs slug).2) :
    FEvt.closed f ∈ (FileReader.Read fs slug).2 := by
  rcases ho : fs.openRes (slug ++ ".md") with e | g
  · simp [FileReader.Read, ho] at h
  · rcases hr : fs.readAllRes g with e | b <;>
      simp [FileReader.Read, ho, hr] at h ⊢ <;> simp [h]

/-- C9 witness: on the concrete filesystem, handle 3 is opened and the
trace also closes it. -/
theorem fileReader_read_closes_witness :
    FEvt.closed 3 ∈ (FileReader.Read fsW "post").2 :=
  fileReader_read_closes fsW "post" 3 (by decide)

/-! ## Claims about `PostHandler` -/

/-- C3: when the content read fails, the handler answers 404 "Post not
found" and never invokes the frontmatter extractor, the markdown
converter, or the template loader/executor. -/
theorem postHandler_notFound (env : Env) (slug : String) (e : FSErr)
    (h : env.read slug = .error e) :
    (postHandler env slug).res = httpError "Post not found" 404 ∧
    Evt.fmCall ∉ (postHandler env slug).events ∧
    Evt.convertCall ∉ (postHandler env slug).events ∧
    Evt.tplLoadCall ∉ (postHandler env slug).events ∧
    Evt.execCall ∉ (postHandler env slug).events := by
  simp [postHandler, h]

/-- An environment whose reader always fails. -/
def envNF : Env :=
  { read := fun _ => .error .missing,
    convert := fun s => .ok s,
    tplLoad := .error (),
    writeLimit := none }

/-- C3 witness: on the always-failing reader the handler answers 404 and
invokes no later collaborator. -/
theorem postHandler_notFound_witness :
    (postHandler envNF "x").res = httpError "Post not found" 404 ∧
    Evt.fmCall ∉ (postHandler envNF "x").events ∧
    Evt.convertCall ∉ (postHandler envNF "x").events ∧
    Evt.tplLoadCall ∉ (postHandler envNF "x").events ∧
    Evt.execCall ∉ (postHandler envNF "x").events :=
  postHandler_notFound envNF "x" .missing rfl

/-- C4: a present-but-malformed frontmatter block yields exactly the 500
response with body "Error parsing frontmatter" — no post reaches the
template, so no partial HTML is written — and this is not the 404
not-found class. -/
theorem postHandler_fmMalformed (env : Env) (slug c : String)
    (h1 : env.read slug = .ok c) (_h2 : hasFmBlock c = true)
    (h3 : frontmatterParse c ({ slug := slug } : Post) = .error ()) :
    (postHandler env slug).res = httpError "Error parsing frontmatter" 500 ∧
    (postHandler env slug).rendered = none ∧
    (postHandler env slug).res.status ≠ 404 ∧
    (postHandler env slug).res.body ≠ "Post not found" := by
  simp [postHandler, h1, h3, httpError]

/-- An environment whose reader returns an unterminated frontmatter
block. -/
def envFM : Env :=
  { read := fun _ => .ok "+++\ntitle = \"T\"",
    convert := fun s => .ok s,
    tplLoad := .error (),
    writeLimit := none }

/-- C4 witness: an unterminated `+++` block is present and malformed, and
the handler answers 500 "Error parsing frontmatter" with nothing
rendered. -/
theorem postHandler_fmMalformed_witness :
    (postHandler envFM "p").res = httpError "Error parsing frontmatter" 500 ∧
    (postHandler envFM "p").rendered = none ∧
    (postHandler envFM "p").res.status ≠ 404 ∧
    (postHandler envFM "p").res.body ≠ "Post not found" :=
  postHandler_fmMalformed envFM "p" "+++\ntitle = \"T\"" rfl (by decide)
    (by rfl)

/-- C6: with no frontmatter block, the extractor hands back the record
untouched (title, frontmatter slug, author name and email all still at
their empty defaults) with the entire input as markdown body, and the
request still succeeds: status 200 with the page rendered from the
default-metadata post. -/
theorem postHandler_noFmBlock (env : Env) (slug c html : String) (L : Layout)
    (h1 : env.read slug = .ok c) (h2 : hasFmBlock c = false)
    (h3 : env.convert c = .ok html) (h4 : env.tplLoad = .ok L)
    (h5 : env.writeLimit = none) :
    frontmatterParse c ({ slug := slug } : Post) =
      .ok (({ slug := slug } : Post), c) ∧
    (postHandler env slug).rendered =
      some { title := "", slug := slug, content := html, author := {} } ∧
    (postHandler env slug).res =
      { status := 200,
        body := executeLayout L
          { title := "", slug := slug, content := html, author := {} } } := by
  have hp := frontmatterParse_absent c ({ slug := slug } : Post) h2
  refine ⟨hp, ?_, ?_⟩ <;> simp [postHandler, h1, hp, h3, h4, h5]

/-- A concrete layout skeleton. -/
def L0 : Layout := ⟨"<h1>", "</h1><p>", "|", "|", "</p>"⟩

/-- An environment serving a plain markdown file with no frontmatter. -/
def envPlain : Env :=
  { read := fun _ => .ok "# Hi",
    convert := fun s => .ok ("[" ++ s ++ "]"),
    tplLoad := .ok L0,
    writeLimit := none }

/-- C6 witness: a file with no frontmatter block renders with all-default
metadata and a 200 response. -/
theorem postHandler_noFmBlock_witness :
    frontmatterParse "# Hi" ({ slug := "s" } : Post) =
      .ok (({ slug := "s" } : Post), "# Hi") ∧
    (postHandler envPlain "s").rendered =
      some { title := "", slug := "s", content := "[# Hi]", author := {} } ∧
    (postHandler envPlain "s").res =
      { status := 200,
        body := executeLayout L0
          { title := "", slug := "s", content := "[# Hi]", author := {} } } :=
  postHandler_noFmBlock envPlain "s" "# Hi" "[# Hi]" L0 rfl (by decide)
    rfl rfl rfl

/-- C7: the handler is deterministic in its inputs — two runs whose
environments agree on the backing content of the requested slug, the
converter, the template file and the writer produce identical output
(responses are byte-identical); there is no cross-request mutable
state. -/
theorem postHandler_deterministic (env env' : Env) (slug : String)
    (h1 : env.read slug = env'.read slug)
    (h2 : env.convert = env'.convert)
    (h3 : env.tplLoad = env'.tplLoad)
    (h4 : env.writeLimit = env'.writeLimit) :
    postHandler env slug = postHandler env' slug := by
  simp only [postHandler]
  rw [h1, h2, h3, h4]

/-- Environment for the C7 witness. -/
def envA : Env :=
  { read := fun s => if s = "a" then .ok "hello" else .error .missing,
    convert := fun s => .ok s,
    tplLoad := .ok L0,
    writeLimit := none }

/-- Environment for the C7 witness, differing from `envA` only at other
slugs. -/
def envB : Env :=
  { read := fun s => if s = "a" then .ok "hello" else .error .permission,
    convert := fun s => .ok s,
    tplLoad := .ok L0,
    writeLimit := none }

/-- C7 witness: two environments that agree on slug `a`'s content give
byte-identical runs. -/
theorem postHandler_deterministic_witness :
    postHandler envA "a" = postHandler envB "a" :=
  postHandler_deterministic envA envB "a" rfl rfl rfl rfl

/-- C10: for every request, the post's slug is set from the URL path first
and the frontmatter parse then runs over that same record, whose result
(with content filled in) is exactly the record handed to the template;
consequently, for every frontmatter content, a block that assigns the
`slug` key overwrites the URL-derived slug (the resulting slug is
independent of the URL-derived value), while content without such an
assignment leaves the URL-derived value in place. -/
theorem postHandler_slug_order (env : Env) (u c rest html : String)
    (p : Post) (L : Layout)
    (h1 : env.read u = .ok c)
    (h2 : frontmatterParse c ({ slug := u } : Post) = .ok (p, rest))
    (h3 : env.convert rest = .ok html)
    (h4 : env.tplLoad = .ok L) :
    (postHandler env u).rendered = some { p with content := html } ∧
    (fmAssignsSlug c = false → p.slug = u) ∧
    (fmAssignsSlug c = true →
      ∀ (v : String) (p2 : Post) (rest2 : String),
        frontmatterParse c ({ slug := v } : Post) = .ok (p2, rest2) →
        p2.slug = p.slug) := by
  refine ⟨?_, ?_, ?_⟩
  · simp [postHandler, h1, h2, h3, h4]
  · intro ha
    exact frontmatterParse_slug_preserve c { slug := u } p rest h2 ha
  · intro ha v p2 rest2 h5
    exact frontmatterParse_slug_overwrite c { slug := v } { slug := u }
      p2 p rest2 rest h5 h2 ha

/-- An environment serving a post whose frontmatter carries its own slug. -/
def envW10 : Env :=
  { read := fun _ => .ok "+++\nslug = \"from-fm\"\n+++\nbody",
    convert := fun s => .ok ("[" ++ s ++ "]"),
    tplLoad := .ok L0,
    writeLimit := none }

/-- An environment serving a post whose frontmatter has no `slug` key. -/
def envW10b : Env :=
  { read := fun _ => .ok "+++\ntitle = \"T\"\n+++\nbody",
    convert := fun s => .ok ("[" ++ s ++ "]"),
    tplLoad := .ok L0,
    writeLimit := none }

/-- C10 witness: with URL slug `url`, a frontmatter `slug` key puts the
frontmatter slug in the record handed to the template, and a block without
one leaves the URL slug in place. -/
theorem postHandler_slug_order_witness :
    ((postHandler envW10 "url").rendered =
      some { title := "", slug := "from-fm", content := "[body]", author := {} }) ∧
    ((postHandler envW10b "url").rendered =
      some { title := "T", slug := "url", content := "[body]", author := {} }) :=
  ⟨(postHandler_slug_order envW10 "url" "+++\nslug = \"from-fm\"\n+++\nbody"
      "body" "[body]" { slug := "from-fm" } L0 rfl rfl rfl rfl).1,
   (postHandler_slug_order envW10b "url" "+++\ntitle = \"T\"\n+++\nbody"
      "body" "[body]" { title := "T", slug := "url" } L0 rfl rfl rfl rfl).1⟩

/-- C8: on a fully rendered page the title is substituted HTML-escaped
(the escaped title carries no raw `<`, `>` or `"`), while the content
fragment appears in the body verbatim between the layout pieces. -/
theorem postHandler_escapes (env : Env) (slug : String) (L : Layout) (p : Post)
    (h1 : env.tplLoad = .ok L)
    (h2 : (postHandler env slug).rendered = some p)
    (h3 : env.writeLimit = none) :
    (postHandler env slug).res.body =
      L.s0 ++ escapeHTML p.title ++ L.s1 ++ escapeHTML p.author.email ++
        L.s2 ++ escapeHTML p.author.name ++ L.s3 ++ p.content ++ L.s4 ∧
    (∀ c ∈ (escapeHTML p.title).data, c ≠ '<' ∧ c ≠ '>' ∧ c ≠ '"') := by
  refine ⟨?_, escapeHTML_no_raw p.title⟩
  rcases hr : env.read slug with e | md
  · simp [postHandler, hr] at h2
  · rcases hf : frontmatterParse md ({ slug := slug } : Post) with u | pr
    · simp [postHandler, hr, hf] at h2
    · obtain ⟨q, rest⟩ := pr
      rcases hc : env.convert rest with u | html
      · simp [postHandler, hr, hf, hc] at h2
      · rcases ht : env.tplLoad with u | L'
        · simp [postHandler, hr, hf, hc, ht] at h2
        · rw [ht] at h1
          injection h1 with h1
          subst h1
          simp [postHandler, hr, hf, hc, ht, h3] at h2 ⊢
          subst h2
          simp [executeLayout]

/-- An environment serving a post whose title contains raw HTML
characters. -/
def envEsc : Env :=
  { read := fun _ => .ok "+++\ntitle = \"a<b\"\n+++\nhi",
    convert := fun s => .ok ("[" ++ s ++ "]"),
    tplLoad := .ok L0,
    writeLimit := none }

/-- C8 witness: the rendered body embeds the escaped title and the verbatim
content, and the escaped title has no raw HTML characters. -/
theorem postHandler_escapes_witness :
    (postHandler envEsc "s").res.body =
      L0.s0 ++ escapeHTML "a<b" ++ L0.s1 ++ escapeHTML "" ++
        L0.s2 ++ escapeHTML "" ++ L0.s3 ++ "[hi]" ++ L0.s4 ∧
    (∀ c ∈ (escapeHTML "a<b").data, c ≠ '<' ∧ c ≠ '>' ∧ c ≠ '"') :=
  postHandler_escapes envEsc "s" L0
    { title := "a<b", slug := "s", content := "[hi]", author := {} }
    rfl rfl rfl

/-- An environment in which the pipeline succeeds but the response writer
fails after accepting 2 bytes, so template execution fails mid-render. -/
def envC1x : Env :=
  { read := fun _ => .ok "hello",
    convert := fun s => .ok s,
    tplLoad := .ok L0,
    writeLimit := some 2 }

/-- C1 counterexample: a request on which the template loads successfully
and then fails during execution, yet the handler's response has status
200, not 500 — the Go code assigns `err = tpl.Execute(w, post)` and never
checks it. -/
theorem postHandler_execFail_not500 :
    (postHandler envC1x "p").execFailed = true ∧
    (postHandler envC1x "p").res.status = 200 ∧
    ¬((postHandler envC1x "p").res.status = 500) := by
  refine ⟨by decide, by decide, by decide⟩

/-- An environment whose template file fails to load. -/
def envTE : Env :=
  { read := fun _ => .ok "x",
    convert := fun s => .ok s,
    tplLoad := .error (),
    writeLimit := none }

/-- C1 (amended): a template-loading failure is converted immediately into
a terminal 500 "Error parsing template", but a failure during template
execution is not converted at all: the error is discarded and the response
keeps status 200 with whatever bytes the writer accepted. -/
theorem postHandler_tplError_execIgnored (env : Env)
    (slug c rest html : String) (p : Post) :
    (env.read slug = .ok c →
      frontmatterParse c ({ slug := slug } : Post) = .ok (p, rest) →
      env.convert rest = .ok html →
      env.tplLoad = .error () →
      (postHandler env slug).res = httpError "Error parsing template" 500) ∧
    ((postHandler env slug).execFailed = true →
      (postHandler env slug).res.status = 200) := by
  constructor
  · intro h1 h2 h3 h4
    simp [postHandler, h1, h2, h3, h4]
  · intro hx
    rcases hr : env.read slug with e | md
    · simp [postHandler, hr] at hx
    · rcases hf : frontmatterParse md ({ slug := slug } : Post) with u | pr
      · simp [postHandler, hr, hf] at hx
      · obtain ⟨q, rest'⟩ := pr
        rcases hc : env.convert rest' with u | html'
        · simp [postHandler, hr, hf, hc] at hx
        · rcases ht : env.tplLoad with u | L'
          · simp [postHandler, hr, hf, hc, ht] at hx
          · simp [postHandler, hr, hf, hc, ht]

/-- C1 (amended) witness: a failing template load yields the 500 response,
and on the writer-failure environment the status stays 200. -/
theorem postHandler_tplError_execIgnored_witness :
    (postHandler envTE "s").res = httpError "Error parsing template" 500 ∧
    (postHandler envC1x "p").res.status = 200 :=
  ⟨(postHandler_tplError_execIgnored envTE "s" "x" "x" "x"
      { slug := "s" }).1 rfl rfl rfl rfl,
   (postHandler_tplError_execIgnored envC1x "p" "" "" "" {}).2 (by decide)⟩

/-- Another layout skeleton, for the C2 counterexample. -/
def L1 : Layout := ⟨"<div>", "", "", "", "</div>"⟩

/-- An environment in which the pipeline succeeds but the writer fails
after 3 bytes. -/
def envC2x : Env :=
  { read := fun _ => .ok "world",
    convert := fun s => .ok s,
    tplLoad := .ok L1,
    writeLimit := some 3 }

/-- C2 counterexample: a request whose response is none of the five
outcomes the claim enumerates — the writer fails during template
execution, leaving status 200 with a truncated page, which is neither the
full rendered page nor any of the error responses. -/
theorem postHandler_outcomes_cex :
    ¬((postHandler envC2x "q").res =
        { status := 200,
          body := executeLayout L1
            { title := "", slug := "q", content := "world", author := {} } } ∨
      (postHandler envC2x "q").res = httpError "Post not found" 404 ∨
      (postHandler envC2x "q").res = httpError "Error parsing frontmatter" 500 ∨
      (postHandler envC2x "q").res = httpError "Error converting markdown" 500 ∨
      (postHandler envC2x "q").res = httpError "Error parsing template" 500) := by
  decide

/-- C2 (amended): provided template execution does not fail, every request
ends in exactly one of: 404 "Post not found", 500 "Error parsing
frontmatter", 500 "Error converting markdown", 500 "Error parsing
template" (each body exactly the message, so no partial output precedes an
error response), or status 200 whose body is exactly the page rendered
from the loaded layout and the final post. -/
theorem postHandler_outcomes (env : Env) (slug : String)
    (h : (postHandler env slug).execFailed = false) :
    (postHandler env slug).res = httpError "Post not found" 404 ∨
    (postHandler env slug).res = httpError "Error parsing frontmatter" 500 ∨
    (postHandler env slug).res = httpError "Error converting markdown" 500 ∨
    (postHandler env slug).res = httpError "Error parsing template" 500 ∨
    ((postHandler env slug).res.status = 200 ∧
      ∃ L p, env.tplLoad = .ok L ∧
        (postHandler env slug).rendered = some p ∧
        (postHandler env slug).res.body = executeLayout L p) := by
  rcases hr : env.read slug with e | md
  · left; simp [postHandler, hr]
  · rcases hf : frontmatterParse md ({ slug := slug } : Post) with u | pr
    · right; left; simp [postHandler, hr, hf]
    · obtain ⟨q, rest⟩ := pr
      rcases hc : env.convert rest with u | html
      · right; right; left; simp [postHandler, hr, hf, hc]
      · rcases ht : env.tplLoad with u | L
        · right; right; right; left; simp [postHandler, hr, hf, hc, ht]
        · right; right; right; right
          refine ⟨by simp [postHandler, hr, hf, hc, ht],
            L, { q with content := html }, rfl,
            by simp [postHandler, hr, hf, hc, ht], ?_⟩
          rcases hw : env.writeLimit with _ | k
          · simp [postHandler, hr, hf, hc, ht, hw]
          · simp only [postHandler, hr, hf, hc, ht, hw] at h ⊢
            simp only [decide_eq_false_iff_not] at h
            simp [takeBytes_of_le _ _ (Nat.le_of_not_lt h)]

/-- C2 (amended) witness: on the plain-markdown environment the disjunction
holds (via the 200 branch). -/
theorem postHandler_outcomes_witness :
    (postHandler envPlain "s").res = httpError "Post not found" 404 ∨
    (postHandler envPlain "s").res = httpError "Error parsing frontmatter" 500 ∨
    (postHandler envPlain "s").res = httpError "Error converting markdown" 500 ∨
    (postHandler envPlain "s").res = httpError "Error parsing template" 500 ∨
    ((postHandler envPlain "s").res.status = 200 ∧
      ∃ L p, envPlain.tplLoad = .ok L ∧
        (postHandler envPlain "s").rendered = some p ∧
        (postHandler envPlain "s").res.body = executeLayout L p) :=
  postHandler_outcomes envPlain "s" (by decide)
